import Mathlib

/-!
Shallow embedding of the buildkite/codebuild-run-build repository.

The Go sources embedded here are the runner package (`Runner`, `Run`,
`waitForLogs`, `waitForBuildComplete`, `exitError`) and the command-line
entry point (`app.Action`, `parseEnv`, `readEnvFile`).  AWS SDK pointer
fields are modelled as `Option`; a nil-pointer dereference is an explicit
`panicked` outcome.  The concurrent merge loop and the poll loops are
embedded as trace interpreters (a trace lists the events the Go `select`
statements consume, in the order they are consumed), plus small-step
relations capturing the nondeterministic choice Go's `select` makes among
simultaneously ready cases.
-/

namespace CodebuildRunBuild

/-- The `codebuild.LogsLocation` record: the `GroupName` and `StreamName` pointer
fields used by `Run`. -/
structure LogsLocation where
  groupName : Option String
  streamName : Option String
  deriving DecidableEq

/-- The `codebuild.Build` record: the pointer fields of the AWS build record that the
runner dereferences (`Id`, `BuildComplete`, `BuildStatus`, `Logs`). -/
structure Build where
  id : Option String
  buildComplete : Option Bool
  buildStatus : Option String
  logs : Option LogsLocation
  deriving DecidableEq

/-- The `codebuild.EnvironmentVariable` pair (the `Name`/`Value` pair submitted in
`StartBuildInput.EnvironmentVariablesOverride`). -/
structure EnvironmentVariable where
  name : String
  value : String
  deriving DecidableEq

/-- The `runner.Env` pair from the command-line entry point version that parses
env flags before handing them to the runner. -/
structure Env where
  name : String
  value : String
  deriving DecidableEq

/-- The `codebuild.ProjectArtifacts` override: only the `Type` field is set by `Run`. -/
structure ProjectArtifacts where
  type : String
  deriving DecidableEq

/-- The `codebuild.StartBuildInput` request as populated by `Run`. -/
structure StartBuildInput where
  projectName : String
  environmentVariablesOverride : List EnvironmentVariable
  artifactsOverride : Option ProjectArtifacts
  sourceTypeOverride : Option String
  sourceLocationOverride : Option String
  deriving DecidableEq

/-- The `runner.Runner` configuration fields `Run` reads. -/
structure Runner where
  projectName : String
  env : List String
  sourceType : String
  sourceLocation : String
  noArtifacts : Bool
  deriving DecidableEq

/-- Go `error` values the embedded code produces.  `exitErrorVal` is the
struct value `exitError{err, code}` that `Run` returns; `exitErrorPtr`
stands for a `*exitError` pointer (never produced by this code, but needed
to state Go's method-set rule faithfully). -/
inductive GoError where
  | plain (msg : String)
  | exitErrorVal (msg : String) (exitCode : Nat)
  | exitErrorPtr (msg : String) (exitCode : Nat)
  deriving DecidableEq

/-- The type assertion `err.(cli.ExitCoder)` in `app.Action`.  In Go,
`ExitCode` is declared with the pointer receiver `(ee *exitError)`, so it
is in the method set of `*exitError` only; the plain `exitError` struct
value that `Run` returns does not implement `cli.ExitCoder`, and the
assertion fails for it. -/
def asExitCoder : GoError → Option Nat
  | GoError.exitErrorPtr _ c => some c
  | GoError.exitErrorVal _ _ => none
  | GoError.plain _ => none

/-- Splits a character list at the first `'='`, returning the parts before
and after it, or `none` when there is no `'='`. -/
def splitEq : List Char → Option (List Char × List Char)
  | [] => none
  | c :: rest =>
    if c = '=' then some ([], rest)
    else (splitEq rest).map (fun p => (c :: p.1, p.2))

/-- Go `strings.SplitN(s, "=", 2)`: two parts split at the first `'='`
when one is present, otherwise the single-element list `[s]`. -/
def goSplitN2 (s : String) : List String :=
  match splitEq s.data with
  | some (a, b) => [⟨a⟩, ⟨b⟩]
  | none => [s]

/-- One iteration of the env loop in `Run` (part_002 lines 45-58): an
entry that `strings.SplitN` cuts into two parts is appended as an
override; any other entry is skipped (`continue`) after a debug-only log
line. -/
def envOverrideStep (acc : List EnvironmentVariable) (env : String) :
    List EnvironmentVariable :=
  match goSplitN2 env with
  | [n, v] => acc ++ [⟨n, v⟩]
  | _ => acc

/-- The env loop of `Run`: folds `envOverrideStep` over the configured
entries, starting from the empty override list. -/
def buildEnvOverrides (envs : List String) : List EnvironmentVariable :=
  envs.foldl envOverrideStep []

/-- The `codebuild.StartBuildInput` that `Run` constructs from the runner
configuration (part_002 lines 40-75). -/
def mkStartBuildInput (r : Runner) : StartBuildInput :=
  { projectName := r.projectName
    environmentVariablesOverride := buildEnvOverrides r.env
    artifactsOverride := if r.noArtifacts then some ⟨"NO_ARTIFACTS"⟩ else none
    sourceTypeOverride := if r.sourceType ≠ "" then some r.sourceType else none
    sourceLocationOverride :=
      if r.sourceLocation ≠ "" then some r.sourceLocation else none }

/-- JSON backslash escapes accepted by Go `encoding/json` when decoding a
string (the `\uXXXX` form is not modelled; it does not occur in any input
considered here). -/
def escapeChar : Char → Option Char
  | '"' => some '"'
  | '\\' => some '\\'
  | '/' => some '/'
  | 'b' => some (Char.ofNat 8)
  | 'f' => some (Char.ofNat 12)
  | 'n' => some '\n'
  | 'r' => some (Char.ofNat 13)
  | 't' => some '\t'
  | _ => none

/-- Body of a JSON string literal, after the opening quote: returns the
decoded characters and the remainder after the closing quote.  Raw
control characters below 0x20 are rejected, as Go's decoder rejects
them. -/
def jsonStringBody : List Char → Option (List Char × List Char)
  | [] => none
  | c :: rest =>
    if c = '"' then some ([], rest)
    else if c = '\\' then
      match rest with
      | [] => none
      | d :: rest2 =>
        match escapeChar d with
        | some e => (jsonStringBody rest2).map (fun p => (e :: p.1, p.2))
        | none => none
    else if c.toNat < 32 then none
    else (jsonStringBody rest).map (fun p => (c :: p.1, p.2))

/-- JSON insignificant whitespace. -/
def isJsonSpace (c : Char) : Bool :=
  c = ' ' || c = '\t' || c = '\n' || c = Char.ofNat 13

/-- Go `json.Unmarshal(data, &s)` with `s : string`: the data must be a
JSON string literal (possibly surrounded by whitespace); anything else is
a decoding error, modelled as `none`. -/
def jsonUnmarshalString (s : String) : Option String :=
  match s.data.dropWhile isJsonSpace with
  | '"' :: rest =>
    match jsonStringBody rest with
    | some (v, r) => if r.dropWhile isJsonSpace = [] then some ⟨v⟩ else none
    | none => none
  | _ => none

/-- Function `parseEnv` from the command-line entry point (part_003 lines
109-121): split at the first `'='`; reject when there is none; then
JSON-unmarshal the value part into a string (the source comment: parse as
json to handle quotes and special chars). -/
def parseEnv (s : String) : Except String Env :=
  match goSplitN2 s with
  | [n, v] =>
    match jsonUnmarshalString v with
    | some m => Except.ok ⟨n, m⟩
    | none => Except.error ("invalid json value in env " ++ s)
  | _ => Except.error ("Failed to parse env " ++ s)

/-- Function `readEnvFile` (part_003 lines 123-146) applied to the lines of the
file: parse each line with `parseEnv`, aborting on the first failure. -/
def parseEnvLines : List String → Except String (List Env)
  | [] => Except.ok []
  | l :: rest =>
    match parseEnv l with
    | Except.error e => Except.error e
    | Except.ok env =>
      match parseEnvLines rest with
      | Except.error e => Except.error e
      | Except.ok envs => Except.ok (env :: envs)

/-- Result of one `BatchGetBuilds` fetch: either the service error, or the
`Builds` slice of the response (which may be empty). -/
inductive FetchResult where
  | fetchErr (e : GoError)
  | builds (bs : List Build)
  deriving DecidableEq

/-- One event consumed by the `select` statement of a poll loop: either
the 10-second `time.After` timer fired and the fetch it guards produced
`r`, or the `ctx.Done()` branch was selected. -/
inductive PollEvent where
  | tick (r : FetchResult)
  | ctxDone
  deriving DecidableEq

/-- Outcome of `waitForLogs`. -/
inductive LogsWait where
  | found (l : LogsLocation)
  | failed (e : GoError)
  deriving DecidableEq

/-- Outcome of `waitForBuildComplete`; `panicked` is the nil dereference
of `*getBuildOutput.Builds[0].BuildComplete`. -/
inductive BuildWait where
  | completed (b : Build)
  | failed (e : GoError)
  | panicked
  deriving DecidableEq

/-- Timer-branch body of `waitForLogs` (part_002 lines 162-177): a fetch
error or an empty `Builds` slice aborts the loop; otherwise the loop
returns the first record's `Logs` when non-nil and keeps polling when
nil. -/
def logsBody : FetchResult → Option LogsWait
  | FetchResult.fetchErr e => some (LogsWait.failed e)
  | FetchResult.builds [] => some (LogsWait.failed (GoError.plain "No builds found"))
  | FetchResult.builds (b :: _) =>
    match b.logs with
    | some l => some (LogsWait.found l)
    | none => none

/-- Function `waitForLogs` (part_002 lines 158-183) over the events its `select`
consumes; `none` means the trace ended with the loop still suspended (no
timer tick and no cancellation yet, hence no fetch either). -/
def waitForLogs : List PollEvent → Option LogsWait
  | [] => none
  | PollEvent.ctxDone :: _ => some (LogsWait.failed (GoError.plain "Context done"))
  | PollEvent.tick r :: rest =>
    match logsBody r with
    | some w => some w
    | none => waitForLogs rest

/-- Timer-branch body of `waitForBuildComplete` (part_002 lines 189-204):
a fetch error or empty `Builds` slice aborts; otherwise the first
record's `BuildComplete` pointer is dereferenced (nil means panic), the
loop returning the record when it is true and polling on when false. -/
def pollBody : FetchResult → Option BuildWait
  | FetchResult.fetchErr e => some (BuildWait.failed e)
  | FetchResult.builds [] => some (BuildWait.failed (GoError.plain "No builds found"))
  | FetchResult.builds (b :: _) =>
    match b.buildComplete with
    | none => some BuildWait.panicked
    | some true => some (BuildWait.completed b)
    | some false => none

/-- Function `waitForBuildComplete` (part_002 lines 185-210) over the events its
`select` consumes. -/
def waitForBuildComplete : List PollEvent → Option BuildWait
  | [] => none
  | PollEvent.ctxDone :: _ => some (BuildWait.failed (GoError.plain "Context done"))
  | PollEvent.tick r :: rest =>
    match pollBody r with
    | some w => some w
    | none => waitForBuildComplete rest

/-- The status switch of `Run`'s completion branch (part_002 lines
134-143): the exit code of the `exitError` returned for a mapped failure
status, `none` for every other status string. -/
def statusExitCode (status : String) : Option Nat :=
  if status = "FAILED" then some 1
  else if status = "FAULT" then some 2
  else if status = "STOPPED" then some 3
  else if status = "TIMED_OUT" then some 4
  else none

/-- What `Run` returns on a mapped or unmapped terminal status. -/
inductive RunResult where
  | ok
  | err (e : GoError)
  | panicked
  | blocked
  deriving DecidableEq

/-- The value `Run` returns from its completion branch for terminal
status `st`: the `exitError` struct value with the mapped code, or `nil`
when the status is unmapped (part_002 lines 132-144). -/
def completionResult (st : String) : RunResult :=
  match statusExitCode st with
  | some c => RunResult.err (GoError.exitErrorVal ("Build finished with status " ++ st) c)
  | none => RunResult.ok

/-- One event consumed by the merge loop's `select` (part_002 lines
122-146): a log event from the watcher (its `Message` pointer may be
nil), an error from either concurrent task, or the completed build
record. -/
inductive LoopEvent where
  | logEvent (message : Option String)
  | errEvent (e : GoError)
  | completeEvent (b : Build)
  deriving DecidableEq

/-- How the merge loop exits: what was printed, whether `cancel()` was
called inside the taken branch, and the value returned. -/
structure LoopExit where
  printed : List String
  cancelled : Bool
  result : RunResult
  deriving DecidableEq

/-- The merge loop of `Run` (part_002 lines 122-146) over the events its
`select` consumes.  A log event prints `*event.Message` and loops; an
error cancels the scope and returns the error; a completed build cancels
the scope and returns `completionResult` of `*build.BuildStatus`.  Events
after the branch that returns are never consumed (the loop exits without
draining); an exhausted trace leaves the loop blocked. -/
def mergeLoop : List LoopEvent → List String → LoopExit
  | [], printed => ⟨printed, false, RunResult.blocked⟩
  | LoopEvent.logEvent none :: _, printed => ⟨printed, false, RunResult.panicked⟩
  | LoopEvent.logEvent (some m) :: rest, printed => mergeLoop rest (printed ++ [m])
  | LoopEvent.errEvent e :: _, printed => ⟨printed, true, RunResult.err e⟩
  | LoopEvent.completeEvent b :: _, printed =>
    match b.buildStatus with
    | none => ⟨printed, true, RunResult.panicked⟩
    | some st => ⟨printed, true, completionResult st⟩

/-- The interactions `Run` has with its environment: the `StartBuild`
response, the events consumed by `waitForLogs`, and the events consumed
by the merge loop. -/
structure RunWorld where
  startResult : StartBuildInput → Except GoError Build
  logsTrace : List PollEvent
  loopTrace : List LoopEvent

/-- Function `Run` (part_002 lines 36-147): submit the build, dereference the
returned record's `Id`, resolve the log sink with `waitForLogs`,
dereference the sink's `GroupName` and `StreamName`, then enter the merge
loop.  Returns the printed log messages paired with the returned
value. -/
def Run (r : Runner) (w : RunWorld) : List String × RunResult :=
  match w.startResult (mkStartBuildInput r) with
  | Except.error e => ([], RunResult.err e)
  | Except.ok b =>
    match b.id with
    | none => ([], RunResult.panicked)
    | some _ =>
      match waitForLogs w.logsTrace with
      | none => ([], RunResult.blocked)
      | some (LogsWait.failed e) => ([], RunResult.err e)
      | some (LogsWait.found logs) =>
        match logs.groupName, logs.streamName with
        | some _, some _ =>
          let le := mergeLoop w.loopTrace []
          (le.printed, le.result)
        | _, _ => ([], RunResult.panicked)

/-- Readiness state of the merge loop's `select`: the senders currently
blocked on `logEvents`, `errs` and `buildComplete`, what has been
printed, and the loop's return value once a branch returned. -/
structure SelectState where
  pendingLogs : List String
  pendingErr : Option GoError
  pendingComplete : Option Build
  printed : List String
  returned : Option LoopExit
  deriving DecidableEq

/-- One iteration of the merge loop's `select` (part_002 lines 122-146).
Per the Go specification, `select` picks uniformly at random among the
ready cases, so any case with a pending sender may be the one taken:
there is no priority among simultaneously ready cases. -/
inductive SelectStep : SelectState → SelectState → Prop where
  | takeLog (s : SelectState) (m : String) (rest : List String)
      (hrun : s.returned = none) (hready : s.pendingLogs = m :: rest) :
      SelectStep s { s with pendingLogs := rest, printed := s.printed ++ [m] }
  | takeErr (s : SelectState) (e : GoError)
      (hrun : s.returned = none) (hready : s.pendingErr = some e) :
      SelectStep s
        { s with pendingErr := none
                 returned := some ⟨s.printed, true, RunResult.err e⟩ }
  | takeComplete (s : SelectState) (b : Build) (st : String)
      (hrun : s.returned = none) (hready : s.pendingComplete = some b)
      (hst : b.buildStatus = some st) :
      SelectStep s
        { s with pendingComplete := none
                 returned := some ⟨s.printed, true, completionResult st⟩ }

/-- Readiness state of `waitForBuildComplete`'s `select`: whether the
surrounding scope has been cancelled (`ctx.Done()` ready), whether the
current iteration's 10-second timer has fired, how many fetches the task
has performed, and its return value once it exited. -/
structure PollState where
  cancelled : Bool
  timerReady : Bool
  fetches : Nat
  returned : Option BuildWait
  deriving DecidableEq

/-- One iteration of `waitForBuildComplete`'s `select` (part_002 lines
186-209).  The timer case performs the fetch and processes its result;
the `ctx.Done()` case returns at once.  Per the Go specification,
`select` picks uniformly at random among the ready cases, so when the
timer is ready at the same moment as cancellation, the timer branch (and
its fetch) may still be the one taken. -/
inductive PollerStep : PollState → PollState → Prop where
  | takeTimer (s : PollState) (r : FetchResult)
      (hrun : s.returned = none) (hready : s.timerReady = true) :
      PollerStep s
        { s with timerReady := false
                 fetches := s.fetches + 1
                 returned := pollBody r }
  | takeDone (s : PollState)
      (hrun : s.returned = none) (hcancelled : s.cancelled = true) :
      PollerStep s
        { s with returned := some (BuildWait.failed (GoError.plain "Context done")) }

/-- What the log stream watcher's poll of the log service can answer. -/
inductive WatchPollResult where
  | streamNotFound
  | events (es : List String)
  | svcError (e : GoError)
  deriving DecidableEq

/-- One event consumed by the watcher: its poll timer fired with the log
service answering `r`, or its scope was cancelled. -/
inductive WatchEvent where
  | tick (r : WatchPollResult)
  | cancelled
  deriving DecidableEq

/-- How the watcher exits: the expected cancellation signal, or a fatal
log-service error. -/
inductive WatchOutcome where
  | cancelledExit
  | fatal (e : GoError)
  deriving DecidableEq

/-- Modelled from the spec: `logWatcher.Watch` is not among the provided
source files (only its construction inside `Run` is), so the watcher loop
is taken from the specification, sections 4.3 and 8: poll the log service
on a fixed interval; emit new events in order; treat a "stream not found"
answer as transient and keep retrying on the same schedule; surface any
other log-service error as fatal; exit with the expected cancellation
signal when the scope is cancelled. -/
def Watch : List WatchEvent → List String → Option (WatchOutcome × List String)
  | [], _ => none
  | WatchEvent.cancelled :: _, emitted => some (WatchOutcome.cancelledExit, emitted)
  | WatchEvent.tick WatchPollResult.streamNotFound :: rest, emitted => Watch rest emitted
  | WatchEvent.tick (WatchPollResult.events es) :: rest, emitted => Watch rest (emitted ++ es)
  | WatchEvent.tick (WatchPollResult.svcError e) :: _, emitted =>
    some (WatchOutcome.fatal e, emitted)

/-- Process exit of the command. -/
inductive ProcessExit where
  | exitCode (n : Nat)
  deriving DecidableEq

/-- Tail of `app.Action` (part_003 lines 89-96): a nil result from `Run`
exits 0; an error that satisfies the `cli.ExitCoder` assertion is
returned to `cli`, which exits with its code; any other error is printed
and the process exits 1. -/
def appActionRun (runResult : Option GoError) : ProcessExit :=
  match runResult with
  | none => ProcessExit.exitCode 0
  | some e =>
    match asExitCoder e with
    | some c => ProcessExit.exitCode c
    | none => ProcessExit.exitCode 1

/-- The `--env` flag loop of `app.Action` (part_003 lines 78-87): the
first entry `parseEnv` rejects makes the process print the error and exit
1; otherwise `Run` is invoked. -/
def appActionEnvFlags (envFlags : List String) (runResult : Option GoError) :
    ProcessExit :=
  match envFlags.find? (fun s => (parseEnv s).toOption.isNone) with
  | some _ => ProcessExit.exitCode 1
  | none => appActionRun runResult

/-- Function `app.Action` (part_003 lines 56-97), starting from its env handling:
when `--env-file` is set, a file line `parseEnv` rejects makes the
process exit 2; then the `--env` entries are parsed (first failure exits
1); then `Run`'s result is mapped to the process exit. -/
def appAction (envFile : Option (List String)) (envFlags : List String)
    (runResult : Option GoError) : ProcessExit :=
  match envFile with
  | some lines =>
    match parseEnvLines lines with
    | Except.error _ => ProcessExit.exitCode 2
    | Except.ok _ => appActionEnvFlags envFlags runResult
  | none => appActionEnvFlags envFlags runResult

/-- Well-formedness of a build record as the build service is assumed to
populate it: the pointer fields `Run` and the poll loops dereference are
non-nil (the log location may itself still be nil, as the loops check,
but when present its group and stream names are non-nil). -/
def Build.wfRecord (b : Build) : Bool :=
  b.id.isSome && b.buildComplete.isSome && b.buildStatus.isSome &&
    (match b.logs with
     | some l => l.groupName.isSome && l.streamName.isSome
     | none => true)

/-- Well-formedness of one poll event: every record in a fetched `Builds`
slice is well formed. -/
def PollEvent.recordsWf : PollEvent → Bool
  | PollEvent.tick (FetchResult.builds bs) => bs.all Build.wfRecord
  | _ => true

/-- Well-formedness of one merge-loop event: a log event carries a
non-nil message and a completion carries a non-nil status. -/
def LoopEvent.wf : LoopEvent → Bool
  | LoopEvent.logEvent m => m.isSome
  | LoopEvent.errEvent _ => true
  | LoopEvent.completeEvent b => b.buildStatus.isSome

/-- The status-to-outcome table exactly as section 4.5 of the spec states
it, written from the spec's words for comparison with the code's switch:
succeeded maps to success, failed to exit code 1, fault to 2, stopped to
3, timed-out to 4, and any other value to success. -/
def specStatusTable (st : String) : Option Nat :=
  if st = "SUCCEEDED" then none
  else if st = "FAILED" then some 1
  else if st = "FAULT" then some 2
  else if st = "STOPPED" then some 3
  else if st = "TIMED_OUT" then some 4
  else none

/-- A runner configuration used by the concrete scenarios. -/
def demoRunner : Runner :=
  { projectName := "my-project", env := [], sourceType := "",
    sourceLocation := "", noArtifacts := false }

/-- The build record as first returned by `StartBuild`: no log sink
assigned yet. -/
def startedBuild : Build :=
  { id := some "build-1", buildComplete := some false,
    buildStatus := some "IN_PROGRESS", logs := none }

/-- The log sink the build service eventually assigns. -/
def sinkLocation : LogsLocation :=
  { groupName := some "group", streamName := some "stream" }

/-- The build record once its log sink is assigned. -/
def startedBuildWithLogs : Build := { startedBuild with logs := some sinkLocation }

/-- The terminal build record with status `st`. -/
def finishedBuild (st : String) : Build :=
  { id := some "build-1", buildComplete := some true,
    buildStatus := some st, logs := some sinkLocation }

theorem statusExitCode_eq_specStatusTable (st : String) :
    statusExitCode st = specStatusTable st := by
  unfold statusExitCode specStatusTable
  split_ifs with h1 <;> simp_all

theorem splitEq_eq_none (l : List Char) (h : '=' ∉ l) : splitEq l = none := by
  induction l with
  | nil => rfl
  | cons c cs ih =>
    have hc : c ≠ '=' := fun hc => h (hc ▸ List.mem_cons_self c cs)
    simp [splitEq, hc, ih (fun hm => h (List.mem_cons_of_mem c hm))]

theorem splitEq_append (l r : List Char) (h : '=' ∉ l) :
    splitEq (l ++ '=' :: r) = some (l, r) := by
  induction l with
  | nil => simp [splitEq]
  | cons c cs ih =>
    have hc : c ≠ '=' := fun hc => h (hc ▸ List.mem_cons_self c cs)
    simp [splitEq, hc, ih (fun hm => h (List.mem_cons_of_mem c hm))]

theorem jsonStringBody_plain (l : List Char)
    (h : ∀ c ∈ l, c ≠ '"' ∧ c ≠ '\\' ∧ 32 ≤ c.toNat) :
    jsonStringBody (l ++ ['"']) = some (l, []) := by
  induction l with
  | nil => simp [jsonStringBody]
  | cons c cs ih =>
    obtain ⟨h1, h2, h3⟩ := h c (List.mem_cons_self c cs)
    have hlt : ¬ c.toNat < 32 := by omega
    rw [List.cons_append, jsonStringBody.eq_def]
    simp [h1, h2, hlt, ih (fun d hd => h d (List.mem_cons_of_mem c hd))]

/-- The per-entry parse performed by the env loop of `Run`: the name and
value when the entry contains an `'='`, nothing otherwise. -/
def parseEnvEntry (e : String) : Option EnvironmentVariable :=
  match goSplitN2 e with
  | [n, v] => some ⟨n, v⟩
  | _ => none

theorem envOverrideStep_eq (acc : List EnvironmentVariable) (e : String) :
    envOverrideStep acc e = acc ++ (parseEnvEntry e).toList := by
  unfold envOverrideStep parseEnvEntry
  cases hsp : goSplitN2 e with
  | nil => simp
  | cons a t =>
    cases t with
    | nil => simp
    | cons b t2 =>
      cases t2 with
      | nil => simp
      | cons c t3 => simp

theorem buildEnvOverrides_eq_filterMap (envs : List String) :
    buildEnvOverrides envs = envs.filterMap parseEnvEntry := by
  suffices h : ∀ acc, envs.foldl envOverrideStep acc
      = acc ++ envs.filterMap parseEnvEntry by
    simpa using h []
  induction envs with
  | nil => intro acc; simp
  | cons e es ih =>
    intro acc
    rw [List.foldl_cons, envOverrideStep_eq, ih, List.filterMap_cons]
    cases hp : parseEnvEntry e <;> simp [List.append_assoc]

theorem mergeLoop_logs_first (msgs : List String) (rest : List LoopEvent)
    (acc : List String) :
    mergeLoop (msgs.map (fun m => LoopEvent.logEvent (some m)) ++ rest) acc
      = mergeLoop rest (acc ++ msgs) := by
  induction msgs generalizing acc with
  | nil => simp
  | cons m ms ih => simp [mergeLoop, ih, List.append_assoc]

theorem mergeLoop_terminal_cancelled (t : List LoopEvent) (acc : List String)
    (hterm : (mergeLoop t acc).result = RunResult.ok ∨
      ∃ e, (mergeLoop t acc).result = RunResult.err e) :
    (mergeLoop t acc).cancelled = true := by
  induction t generalizing acc with
  | nil =>
    simp only [mergeLoop] at hterm
    rcases hterm with h | ⟨e, h⟩ <;> cases h
  | cons ev rest ih =>
    cases ev with
    | logEvent m =>
      cases m with
      | none =>
        simp only [mergeLoop] at hterm
        rcases hterm with h | ⟨e, h⟩ <;> cases h
      | some msg =>
        simp only [mergeLoop] at hterm ⊢
        exact ih _ hterm
    | errEvent e => simp [mergeLoop]
    | completeEvent b =>
      cases hb : b.buildStatus <;> simp [mergeLoop, hb]

theorem waitForLogs_found_wf (t : List PollEvent) (l : LogsLocation)
    (hwf : t.all PollEvent.recordsWf = true)
    (h : waitForLogs t = some (LogsWait.found l)) :
    l.groupName.isSome = true ∧ l.streamName.isSome = true := by
  induction t with
  | nil => cases h
  | cons e rest ih =>
    rw [List.all_cons, Bool.and_eq_true] at hwf
    obtain ⟨hwf1, hwf2⟩ := hwf
    cases e with
    | ctxDone => simp [waitForLogs] at h
    | tick r =>
      cases r with
      | fetchErr e2 => simp [waitForLogs, logsBody] at h
      | builds bs =>
        cases bs with
        | nil => simp [waitForLogs, logsBody] at h
        | cons b bs2 =>
          cases hb : b.logs with
          | none =>
            simp only [waitForLogs, logsBody, hb] at h
            exact ih hwf2 h
          | some lb =>
            simp only [waitForLogs, logsBody, hb, Option.some.injEq,
              LogsWait.found.injEq] at h
            subst h
            simp only [PollEvent.recordsWf, List.all_cons,
              Bool.and_eq_true, Build.wfRecord, hb] at hwf1
            obtain ⟨⟨_, hlb⟩, _⟩ := hwf1
            exact hlb

theorem waitForBuildComplete_wf (t : List PollEvent)
    (hwf : t.all PollEvent.recordsWf = true) :
    waitForBuildComplete t ≠ some BuildWait.panicked := by
  induction t with
  | nil => intro h; cases h
  | cons e rest ih =>
    rw [List.all_cons, Bool.and_eq_true] at hwf
    obtain ⟨hwf1, hwf2⟩ := hwf
    cases e with
    | ctxDone => intro h; simp [waitForBuildComplete] at h
    | tick r =>
      cases r with
      | fetchErr e2 => intro h; simp [waitForBuildComplete, pollBody] at h
      | builds bs =>
        cases bs with
        | nil => intro h; simp [waitForBuildComplete, pollBody] at h
        | cons b bs2 =>
          simp only [PollEvent.recordsWf, List.all_cons,
            Bool.and_eq_true, Build.wfRecord] at hwf1
          obtain ⟨⟨⟨⟨_, hbc⟩, _⟩, _⟩, _⟩ := hwf1
          cases hb : b.buildComplete with
          | none => rw [hb] at hbc; cases hbc
          | some v =>
            cases v with
            | true => intro h; simp [waitForBuildComplete, pollBody, hb] at h
            | false =>
              simp only [waitForBuildComplete, pollBody, hb]
              exact ih hwf2

theorem mergeLoop_wf (t : List LoopEvent) (acc : List String)
    (hwf : t.all LoopEvent.wf = true) :
    (mergeLoop t acc).result ≠ RunResult.panicked := by
  induction t generalizing acc with
  | nil => intro h; cases h
  | cons ev rest ih =>
    rw [List.all_cons, Bool.and_eq_true] at hwf
    obtain ⟨hwf1, hwf2⟩ := hwf
    cases ev with
    | logEvent m =>
      cases m with
      | none => cases hwf1
      | some msg =>
        simp only [mergeLoop]
        exact ih _ hwf2
    | errEvent e => intro h; cases h
    | completeEvent b =>
      cases hb : b.buildStatus with
      | none => simp [LoopEvent.wf, hb] at hwf1
      | some st =>
        simp only [mergeLoop, hb]
        cases hc : statusExitCode st <;> simp [completionResult, hc]

/-- A poll event that makes `waitForLogs` keep polling: a fetch whose
first record has no log location yet. -/
def logsPending : PollEvent → Bool
  | PollEvent.tick (FetchResult.builds (b :: _)) => b.logs.isNone
  | _ => false

/-- A poll event that makes `waitForBuildComplete` keep polling: a fetch
whose first record is not yet complete. -/
def pollPending : PollEvent → Bool
  | PollEvent.tick (FetchResult.builds (b :: _)) =>
    decide (b.buildComplete = some false)
  | _ => false

theorem waitForLogs_skip (pre rest : List PollEvent)
    (h : ∀ e ∈ pre, logsPending e = true) :
    waitForLogs (pre ++ rest) = waitForLogs rest := by
  induction pre with
  | nil => rfl
  | cons e es ih =>
    have he := h e (List.mem_cons_self e es)
    cases e with
    | ctxDone => simp [logsPending] at he
    | tick r =>
      cases r with
      | fetchErr e2 => simp [logsPending] at he
      | builds bs =>
        cases bs with
        | nil => simp [logsPending] at he
        | cons b bs2 =>
          have hb : b.logs = none := by
            simpa [logsPending, Option.isNone_iff_eq_none] using he
          simp only [List.cons_append, waitForLogs, logsBody, hb]
          exact ih (fun d hd => h d (List.mem_cons_of_mem _ hd))

theorem waitForBuildComplete_skip (pre rest : List PollEvent)
    (h : ∀ e ∈ pre, pollPending e = true) :
    waitForBuildComplete (pre ++ rest) = waitForBuildComplete rest := by
  induction pre with
  | nil => rfl
  | cons e es ih =>
    have he := h e (List.mem_cons_self e es)
    cases e with
    | ctxDone => simp [pollPending] at he
    | tick r =>
      cases r with
      | fetchErr e2 => simp [pollPending] at he
      | builds bs =>
        cases bs with
        | nil => simp [pollPending] at he
        | cons b bs2 =>
          have hb : b.buildComplete = some false := by
            simpa [pollPending] using he
          simp only [List.cons_append, waitForBuildComplete, pollBody, hb]
          exact ih (fun d hd => h d (List.mem_cons_of_mem _ hd))

/-- The world of the C1 scenario: the build starts, the first poll finds
the log sink, and the completion channel then delivers the terminal
record with status `st`. -/
def c1World (st : String) : RunWorld :=
  { startResult := fun _ => Except.ok startedBuild
    logsTrace := [PollEvent.tick (FetchResult.builds [startedBuildWithLogs])]
    loopTrace := [LoopEvent.completeEvent (finishedBuild st)] }

/-- C1: for every terminal build status delivered on the completion
channel, `Run` returns the outcome fixed by the mapping table of section
4.5: SUCCEEDED returns no error, FAILED an `exitError` with exit code 1,
FAULT 2, STOPPED 3, TIMED_OUT 4, and any other status value returns no
error. -/
theorem c1_completion_status_mapping (st : String) :
    (Run demoRunner (c1World st)).2 =
      match specStatusTable st with
      | some c =>
        RunResult.err (GoError.exitErrorVal ("Build finished with status " ++ st) c)
      | none => RunResult.ok := by
  have h : (Run demoRunner (c1World st)).2 = completionResult st := rfl
  rw [h]
  unfold completionResult
  rw [statusExitCode_eq_specStatusTable]

/-- C2: the claim (process exit code equals the section 4.5 code for
mapped failure statuses, 1 for unclassified errors, 2 for every local
input-parsing error) does not hold of the code.  Because `ExitCode` has a
pointer receiver while `Run` returns an `exitError` value, the
`cli.ExitCoder` assertion in `app.Action` fails and every build failure
exits with code 1, and a malformed `--env` entry exits 1 as well (only an
`--env-file` parse failure exits 2). -/
theorem c2_process_exit_codes :
    appAction none []
        (some (GoError.exitErrorVal "Build finished with status FAILED" 1))
      = ProcessExit.exitCode 1 ∧
    appAction none []
        (some (GoError.exitErrorVal "Build finished with status FAULT" 2))
      = ProcessExit.exitCode 1 ∧
    appAction none []
        (some (GoError.exitErrorVal "Build finished with status STOPPED" 3))
      = ProcessExit.exitCode 1 ∧
    appAction none []
        (some (GoError.exitErrorVal "Build finished with status TIMED_OUT" 4))
      = ProcessExit.exitCode 1 ∧
    appAction none [] (some (GoError.plain "No builds found"))
      = ProcessExit.exitCode 1 ∧
    appAction none [] none = ProcessExit.exitCode 0 ∧
    appAction none ["FOO"] none = ProcessExit.exitCode 1 ∧
    appAction (some ["FOO"]) [] none = ProcessExit.exitCode 2 := by
  exact ⟨rfl, rfl, rfl, rfl, rfl, rfl, rfl, rfl⟩

/-- The terminal record of the concrete completion scenarios. -/
def succeededBuild : Build := finishedBuild "SUCCEEDED"

/-- Merge-loop state in which a log sender and the completion sender are
both blocked on their channels, so both `select` cases are ready. -/
def c3BothReady : SelectState :=
  { pendingLogs := ["a log line"], pendingErr := none,
    pendingComplete := some succeededBuild, printed := [], returned := none }

/-- The state after the `select` takes the log case of `c3BothReady`. -/
def c3TookLog : SelectState :=
  { pendingLogs := [], pendingErr := none,
    pendingComplete := some succeededBuild, printed := ["a log line"],
    returned := none }

/-- C3 counterexample: completion is not taken with priority when a log
event and the completion signal are simultaneously ready.  From a state
with both channels ready, Go's `select` (uniform choice among ready
cases) may take the log case, printing the log line while completion
remains pending and the loop has not returned. -/
theorem c3_no_priority_counterexample :
    SelectStep c3BothReady c3TookLog ∧
      c3BothReady.pendingComplete.isSome = true ∧
      c3BothReady.pendingLogs = ["a log line"] ∧
      c3TookLog.returned = none ∧
      c3TookLog.printed = ["a log line"] := by
  refine ⟨?_, rfl, rfl, rfl, rfl⟩
  exact SelectStep.takeLog c3BothReady "a log line" [] rfl rfl

/-- C3 (amended): every log event consumed strictly before the completion
signal is printed, in order, before the outcome is returned; once the
completion branch is taken the scope is cancelled and the loop returns
without draining any further queued event (the result does not depend on
`tail`); but between simultaneously ready channels the `select` chooses
nondeterministically, completion has no priority. -/
theorem c3_merge_order_no_drain (msgs : List String) (b : Build) (st : String)
    (tail : List LoopEvent) (hst : b.buildStatus = some st) :
    mergeLoop (msgs.map (fun m => LoopEvent.logEvent (some m))
        ++ LoopEvent.completeEvent b :: tail) []
      = ⟨msgs, true, completionResult st⟩ := by
  rw [mergeLoop_logs_first]
  simp [mergeLoop, hst]

/-- Witness for C3 (amended): two log events ahead of completion are both
printed in order, the loop returns success, and the queued event behind
the completion signal is not drained (it would have been a nil-message
panic had it been consumed). -/
theorem c3_merge_order_no_drain_witness :
    mergeLoop [LoopEvent.logEvent (some "l1"), LoopEvent.logEvent (some "l2"),
        LoopEvent.completeEvent succeededBuild, LoopEvent.logEvent none] []
      = ⟨["l1", "l2"], true, RunResult.ok⟩ :=
  c3_merge_order_no_drain ["l1", "l2"] succeededBuild "SUCCEEDED"
    [LoopEvent.logEvent none] rfl

/-- C4 counterexample: `parseEnv` does not accept the plain `KEY=value`
form — the value part must be a JSON string, so `FOO=bar` is rejected —
and the env loop inside `Run` (part_002) silently drops an entry with no
`'='` from the submitted request instead of rejecting it. -/
theorem c4_env_counterexample :
    parseEnv "FOO=bar" = Except.error "invalid json value in env FOO=bar" ∧
      (∀ e : Env, parseEnv "FOO=bar" ≠ Except.ok e) ∧
      buildEnvOverrides ["FOO"] = [] := by
  refine ⟨rfl, fun e h => ?_, rfl⟩
  rw [show parseEnv "FOO=bar"
      = Except.error "invalid json value in env FOO=bar" from rfl] at h
  cases h

/-- C4 (amended): an env entry parses successfully exactly when its value
part is a JSON string: `KEY="value"` yields one override with name `KEY`
and the unquoted `value`; an entry with no `'='` is rejected by
`parseEnv` with an error, not dropped — whereas the env loop inside `Run`
(part_002) drops such an entry from the submitted request silently. -/
theorem c4_env_parsing (k v s : String)
    (hk : '=' ∉ k.data)
    (hv : ∀ c ∈ v.data, c ≠ '"' ∧ c ≠ '\\' ∧ 32 ≤ c.toNat)
    (hs : '=' ∉ s.data) :
    parseEnv (k ++ "=\"" ++ v ++ "\"") = Except.ok ⟨k, v⟩ ∧
    parseEnv s = Except.error ("Failed to parse env " ++ s) ∧
    buildEnvOverrides [s] = [] := by
  have hdata : (k ++ "=\"" ++ v ++ "\"").data
      = k.data ++ '=' :: '"' :: (v.data ++ ['"']) := by
    simp [String.data_append]
  have hsplit : goSplitN2 (k ++ "=\"" ++ v ++ "\"")
      = [k, ⟨'"' :: (v.data ++ ['"'])⟩] := by
    unfold goSplitN2
    rw [hdata, splitEq_append _ _ hk]
  have hjson : jsonUnmarshalString ⟨'"' :: (v.data ++ ['"'])⟩ = some v := by
    unfold jsonUnmarshalString
    have hq : isJsonSpace '"' = false := rfl
    simp only [List.dropWhile, hq]
    rw [jsonStringBody_plain v.data hv]
    rfl
  have hnone : goSplitN2 s = [s] := by
    unfold goSplitN2
    rw [splitEq_eq_none s.data hs]
  refine ⟨?_, ?_, ?_⟩
  · simp only [parseEnv, hsplit, hjson]
  · simp only [parseEnv, hnone]
  · show envOverrideStep [] s = []
    simp only [envOverrideStep, hnone]

/-- Witness for C4 (amended) at concrete entries. -/
theorem c4_env_parsing_witness :
    parseEnv "FOO=\"bar\"" = Except.ok ⟨"FOO", "bar"⟩ ∧
    parseEnv "NOEQ" = Except.error ("Failed to parse env " ++ "NOEQ") ∧
    buildEnvOverrides ["NOEQ"] = [] :=
  c4_env_parsing "FOO" "bar" "NOEQ" (by decide) (by decide) (by decide)

/-- The poll event in which the build service answers with zero
records. -/
def zeroRecordsTick : PollEvent := PollEvent.tick (FetchResult.builds [])

/-- C5: when a fetch returns zero records for the handle, `waitForLogs`
and `waitForBuildComplete` both fail with the lookup error, and `Run`
returns that error as-is — a plain error, not one produced by the
status-to-exit mapping — whether it comes from the log-sink resolution or
(through the `errs` channel) from the status poller. -/
theorem c5_zero_records (pre1 pre2 : List PollEvent) (lt : List LoopEvent)
    (h1 : ∀ e ∈ pre1, logsPending e = true)
    (h2 : ∀ e ∈ pre2, pollPending e = true) :
    waitForLogs (pre1 ++ [zeroRecordsTick])
        = some (LogsWait.failed (GoError.plain "No builds found")) ∧
    waitForBuildComplete (pre2 ++ [zeroRecordsTick])
        = some (BuildWait.failed (GoError.plain "No builds found")) ∧
    Run demoRunner
        { startResult := fun _ => Except.ok startedBuild,
          logsTrace := pre1 ++ [zeroRecordsTick], loopTrace := lt }
      = ([], RunResult.err (GoError.plain "No builds found")) ∧
    mergeLoop [LoopEvent.errEvent (GoError.plain "No builds found")] []
      = ⟨[], true, RunResult.err (GoError.plain "No builds found")⟩ ∧
    (∀ m c, GoError.plain "No builds found" ≠ GoError.exitErrorVal m c) := by
  have hlogs : waitForLogs (pre1 ++ [zeroRecordsTick])
      = some (LogsWait.failed (GoError.plain "No builds found")) := by
    rw [waitForLogs_skip _ _ h1]
    rfl
  refine ⟨hlogs, ?_, ?_, rfl, fun m c h => by cases h⟩
  · rw [waitForBuildComplete_skip _ _ h2]
    rfl
  · show (match waitForLogs (pre1 ++ [zeroRecordsTick]) with
      | none => (([], RunResult.blocked) : List String × RunResult)
      | some (LogsWait.failed e) => ([], RunResult.err e)
      | some (LogsWait.found logs) =>
        match logs.groupName, logs.streamName with
        | some _, some _ =>
          let le := mergeLoop lt []
          (le.printed, le.result)
        | _, _ => ([], RunResult.panicked))
      = ([], RunResult.err (GoError.plain "No builds found"))
    rw [hlogs]

/-- Witness for C5 at a concrete scenario: one pending poll each before
the zero-records answer. -/
theorem c5_zero_records_witness :
    waitForLogs ([PollEvent.tick (FetchResult.builds [startedBuild])]
          ++ [zeroRecordsTick])
        = some (LogsWait.failed (GoError.plain "No builds found")) ∧
    waitForBuildComplete
          ([PollEvent.tick (FetchResult.builds [startedBuildWithLogs])]
            ++ [zeroRecordsTick])
        = some (BuildWait.failed (GoError.plain "No builds found")) ∧
    Run demoRunner
        { startResult := fun _ => Except.ok startedBuild,
          logsTrace := [PollEvent.tick (FetchResult.builds [startedBuild])]
            ++ [zeroRecordsTick],
          loopTrace := [] }
      = ([], RunResult.err (GoError.plain "No builds found")) ∧
    mergeLoop [LoopEvent.errEvent (GoError.plain "No builds found")] []
      = ⟨[], true, RunResult.err (GoError.plain "No builds found")⟩ ∧
    (∀ m c, GoError.plain "No builds found" ≠ GoError.exitErrorVal m c) :=
  c5_zero_records [PollEvent.tick (FetchResult.builds [startedBuild])]
    [PollEvent.tick (FetchResult.builds [startedBuildWithLogs])] []
    (by decide) (by decide)

/-- Poller state at a suspension point where the scope has just been
cancelled while the iteration's 10-second timer is also ready: both
`select` cases of `waitForBuildComplete` can proceed. -/
def c6CancelledBothReady : PollState :=
  { cancelled := true, timerReady := true, fetches := 0, returned := none }

/-- The state after the `select` of `c6CancelledBothReady` takes the
timer case: one more fetch was performed after cancellation. -/
def c6AfterExtraFetch : PollState :=
  { cancelled := true, timerReady := false, fetches := 1,
    returned := some (BuildWait.completed succeededBuild) }

/-- C6 counterexample: "no further service calls after the orchestrator
reaches Done" does not hold of the code.  When the poll timer is ready at
the same moment as cancellation, Go's `select` (uniform choice among
ready cases) may take the timer case, so the poller can perform one more
fetch after the cancellation signal fired. -/
theorem c6_fetch_after_cancel_counterexample :
    PollerStep c6CancelledBothReady c6AfterExtraFetch ∧
      c6CancelledBothReady.cancelled = true ∧
      c6AfterExtraFetch.fetches = c6CancelledBothReady.fetches + 1 := by
  refine ⟨?_, rfl, rfl⟩
  exact PollerStep.takeTimer c6CancelledBothReady
    (FetchResult.builds [succeededBuild]) rfl rfl

/-- C6 (amended): on every terminal condition of the merge loop (success,
mapped failure, or an error from either task) the cancellation signal is
triggered before `Run` returns; a cancelled task whose `select` takes the
`ctx.Done()` branch exits at once with no further fetch; but a task whose
poll timer is ready simultaneously with cancellation may perform one more
fetch before exiting, because `select` chooses among ready branches
nondeterministically. -/
theorem c6_cancellation (t : List LoopEvent) (acc : List String) (s : PollState)
    (hterm : (mergeLoop t acc).result = RunResult.ok ∨
      ∃ e, (mergeLoop t acc).result = RunResult.err e)
    (hrun : s.returned = none) (hcancelled : s.cancelled = true) :
    (mergeLoop t acc).cancelled = true ∧
    PollerStep s
      { s with returned := some (BuildWait.failed (GoError.plain "Context done")) } ∧
    ({ s with returned := some (BuildWait.failed (GoError.plain "Context done")) }
        : PollState).fetches = s.fetches :=
  ⟨mergeLoop_terminal_cancelled t acc hterm,
    PollerStep.takeDone s hrun hcancelled, rfl⟩

/-- Witness for C6 (amended) at a concrete loop trace and poller
state. -/
theorem c6_cancellation_witness :
    (mergeLoop [LoopEvent.errEvent (GoError.plain "watch failed")] []).cancelled
        = true ∧
      PollerStep (⟨true, false, 5, none⟩ : PollState)
        { (⟨true, false, 5, none⟩ : PollState) with
          returned := some (BuildWait.failed (GoError.plain "Context done")) } ∧
      ({ (⟨true, false, 5, none⟩ : PollState) with
          returned := some (BuildWait.failed (GoError.plain "Context done")) }
          : PollState).fetches = (⟨true, false, 5, none⟩ : PollState).fetches :=
  c6_cancellation [LoopEvent.errEvent (GoError.plain "watch failed")] []
    ⟨true, false, 5, none⟩ (Or.inr ⟨GoError.plain "watch failed", rfl⟩) rfl rfl

/-- A runner whose env contains two entries with the same name. -/
def dupEnvRunner : Runner :=
  { projectName := "my-project", env := ["A=1", "A=2"], sourceType := "",
    sourceLocation := "", noArtifacts := false }

/-- C7 counterexample: the submitted override list does not have unique
names and no last-wins resolution happens — with input entries `A=1` and
`A=2`, both overrides are submitted, so the name `A` appears twice in the
request. -/
theorem c7_duplicate_names_counterexample :
    (mkStartBuildInput dupEnvRunner).environmentVariablesOverride
        = [⟨"A", "1"⟩, ⟨"A", "2"⟩] ∧
      ¬ ((mkStartBuildInput dupEnvRunner).environmentVariablesOverride.map
          EnvironmentVariable.name).Nodup := by
  constructor
  · rfl
  · decide

/-- C7 (amended): the submitted override list keeps every entry that
contains an `'='`, in input order and duplicates included; no entry is
dropped by the duplicate handling because there is none — the tool
performs no name-deduplication and no last-wins resolution before
submitting. -/
theorem c7_all_entries_submitted (r : Runner) :
    (mkStartBuildInput r).environmentVariablesOverride
      = r.env.filterMap parseEnvEntry := by
  show buildEnvOverrides r.env = r.env.filterMap parseEnvEntry
  exact buildEnvOverrides_eq_filterMap r.env

/-- C8: a watcher whose every poll is answered "stream not found" never
surfaces that as an error — it keeps consuming those polls on its
schedule and exits with only the expected cancellation signal when its
scope is cancelled, its emitted output unchanged. -/
theorem c8_stream_not_found_retry (n : Nat) (emitted : List String) :
    Watch (List.replicate n (WatchEvent.tick WatchPollResult.streamNotFound)
        ++ [WatchEvent.cancelled]) emitted
      = some (WatchOutcome.cancelledExit, emitted) := by
  induction n with
  | zero => rfl
  | succ k ih => simpa [List.replicate_succ, Watch] using ih

/-- A build record with every pointer field nil. -/
def nilFieldsBuild : Build :=
  { id := none, buildComplete := none, buildStatus := none, logs := none }

/-- C9: under the precondition that the build service populates the
dereferenced pointer fields on every record it returns (and the log
service populates event messages), `Run` never reaches the panic outcome
and neither does the status poller; and when a returned record has these
fields nil — here the start record — the panic branch of the embedding is
reached. -/
theorem c9_nil_pointer_safety (r : Runner) (w : RunWorld)
    (hstart : ∀ i b, w.startResult i = Except.ok b → b.id.isSome = true)
    (hlogs : w.logsTrace.all PollEvent.recordsWf = true)
    (hloop : w.loopTrace.all LoopEvent.wf = true) :
    (Run r w).2 ≠ RunResult.panicked ∧
    (∀ t : List PollEvent, t.all PollEvent.recordsWf = true →
      waitForBuildComplete t ≠ some BuildWait.panicked) ∧
    Run r { startResult := fun _ => Except.ok nilFieldsBuild,
            logsTrace := [], loopTrace := [] }
      = ([], RunResult.panicked) := by
  refine ⟨?_, fun t ht => waitForBuildComplete_wf t ht, rfl⟩
  unfold Run
  cases hsr : w.startResult (mkStartBuildInput r) with
  | error e => simp
  | ok b =>
    have hid := hstart _ b hsr
    cases hb : b.id with
    | none => rw [hb] at hid; cases hid
    | some bid =>
      simp only [hb]
      cases hwl : waitForLogs w.logsTrace with
      | none => simp
      | some lw =>
        cases lw with
        | failed e => simp
        | found logs =>
          obtain ⟨hg, hs2⟩ := waitForLogs_found_wf _ _ hlogs hwl
          cases hgn : logs.groupName with
          | none => rw [hgn] at hg; cases hg
          | some g =>
            cases hsn : logs.streamName with
            | none => rw [hsn] at hs2; cases hs2
            | some s2 =>
              simp only [hgn, hsn]
              simpa using mergeLoop_wf w.loopTrace [] hloop

/-- The well-formed world of the C9 witness. -/
def c9WitnessWorld : RunWorld :=
  { startResult := fun _ => Except.ok startedBuild
    logsTrace := [PollEvent.tick (FetchResult.builds [startedBuild]),
      PollEvent.tick (FetchResult.builds [startedBuildWithLogs])]
    loopTrace := [LoopEvent.logEvent (some "line"),
      LoopEvent.completeEvent succeededBuild] }

/-- Witness for C9 at a concrete well-formed world. -/
theorem c9_nil_pointer_safety_witness :
    (Run demoRunner c9WitnessWorld).2 ≠ RunResult.panicked :=
  (c9_nil_pointer_safety demoRunner c9WitnessWorld
    (fun i b h => by cases h; rfl) (by decide) (by decide)).1

/-- C10: in both poll loops the fetch is guarded by the interval timer:
with no timer tick consumed yet, both loops are still suspended and no
fetch result exists (even for a job already complete with its sink
already assigned, as the concrete conjuncts show at a single-tick trace),
and any trace on which a loop resolves its job contains a timer tick. -/
theorem c10_no_fetch_before_first_tick :
    waitForLogs [] = none ∧
    waitForBuildComplete [] = none ∧
    (∀ t l, waitForLogs t = some (LogsWait.found l) →
      ∃ r, PollEvent.tick r ∈ t) ∧
    (∀ t b, waitForBuildComplete t = some (BuildWait.completed b) →
      ∃ r, PollEvent.tick r ∈ t) ∧
    waitForLogs [PollEvent.tick (FetchResult.builds [startedBuildWithLogs])]
      = some (LogsWait.found sinkLocation) ∧
    waitForBuildComplete [PollEvent.tick (FetchResult.builds [succeededBuild])]
      = some (BuildWait.completed succeededBuild) := by
  refine ⟨rfl, rfl, ?_, ?_, rfl, rfl⟩
  · intro t l h
    cases t with
    | nil => cases h
    | cons e rest =>
      cases e with
      | ctxDone => simp [waitForLogs] at h
      | tick r => exact ⟨r, List.mem_cons_self _ _⟩
  · intro t b h
    cases t with
    | nil => cases h
    | cons e rest =>
      cases e with
      | ctxDone => simp [waitForBuildComplete] at h
      | tick r => exact ⟨r, List.mem_cons_self _ _⟩

/-- Witness for C10: the resolving single-tick trace indeed contains a
tick. -/
theorem c10_no_fetch_before_first_tick_witness :
    ∃ r, PollEvent.tick r
      ∈ [PollEvent.tick (FetchResult.builds [startedBuildWithLogs])] :=
  c10_no_fetch_before_first_tick.2.2.1
    [PollEvent.tick (FetchResult.builds [startedBuildWithLogs])] sinkLocation rfl

end CodebuildRunBuild
